import Mathlib

/-!
Verification of the `dump_mem` bootloader payload
(`src/bootloader-payloads/payloads/dump_mem/dump_mem.c`).

The payload is embedded shallowly:

* Device memory is a byte-addressed map `Mem := Nat → Nat`; a byte read
  takes the stored value modulo 256, and 32-bit fields are read
  little-endian (the host and device share word layout by construction).
* `doit` is translated statement by statement from the C source into a
  function that returns the ordered trace of observable actions
  (full-field command reads, the two UART transport calls, the response
  status write and the return), the final memory, and the return value.
* The inline-assembly register save/restore in `_start`
  (`stmfd sp!, {r2-r12, lr}` / `ldmfd sp!, {r2-r12, lr}`) is embedded as
  explicit store-multiple / load-multiple operations on a register file
  `Nat → Nat` (indexed by register number) and a stack memory.
-/

/-- Byte-addressed device memory: the stored value at each address;
reads truncate to a byte. -/
abbrev Mem : Type := Nat → Nat

/-- Read one byte: the stored value truncated to 8 bits. -/
def readByte (m : Mem) (a : Nat) : Nat := m a % 256

/-- Little-endian 32-bit load at address `a`, as performed by
`*((uint32_t *)(read_buf+8))` and `*((char **)(read_buf+4))` in `doit`. -/
def read32 (m : Mem) (a : Nat) : Nat :=
  readByte m a + 256 * readByte m (a + 1) + 256 ^ 2 * readByte m (a + 2) +
    256 ^ 3 * readByte m (a + 3)

/-- Bytes of the memory window `[a, a + n)` in address order, as streamed
by `UART_protocol_send_many(tar_addr, size)`. -/
def readBytes (m : Mem) (a n : Nat) : List Nat :=
  (List.range n).map (fun i => readByte m (a + i))

/-- Contents of `char greeting[] = "Ok\0";` — the string literal holds
`'O'`, `'k'`, the explicit NUL, and the implicit terminating NUL, so the
array has four bytes and `sizeof(greeting) = 4`. -/
def greeting : List Nat := [79, 107, 0, 0]

/-- Observable actions of one payload invocation: a full 4-byte read of a
command-buffer field, the two transport primitives (with the bytes they
emit), the response-buffer status write, and the final return. -/
inductive Act where
  | readCmd (offset value : Nat)
  | callSingle (bytes : List Nat) (len : Nat)
  | callMany (addr len : Nat) (bytes : List Nat)
  | writeResp (offset value : Nat)
  | ret (value : Nat)
  deriving DecidableEq, Repr

/-- Transport calls: `UART_protocol_send_single` or `UART_protocol_send_many`. -/
def Act.isTransport : Act → Bool
  | .callSingle _ _ => true
  | .callMany _ _ _ => true
  | _ => false

/-- Command-buffer field reads. -/
def Act.isCmdRead : Act → Bool
  | .readCmd _ _ => true
  | _ => false

/-- Response-buffer writes. -/
def Act.isRespWrite : Act → Bool
  | .writeResp _ _ => true
  | _ => false

/-- The bulk transfer call `UART_protocol_send_many`. -/
def Act.isBulk : Act → Bool
  | .callMany _ _ _ => true
  | _ => false

/-- Result of one run of `doit`: the ordered action trace, the device
memory afterwards, and the C return value. -/
structure DoitResult where
  trace : List Act
  mem : Mem
  ret : Nat

/-- The command decoder (lines 56–57 of `doit`): the 4-byte address field
at offset 4 and the 4-byte unsigned count at offset 8, passed through
with no validation. -/
def decode (m : Mem) (read_buf : Nat) : Nat × Nat :=
  (read32 m (read_buf + 4), read32 m (read_buf + 8))

/-- The command decoder with its memory effect made explicit: it performs
only loads, so it returns the memory unchanged. -/
def decodeSt (m : Mem) (read_buf : Nat) : (Nat × Nat) × Mem :=
  ((read32 m (read_buf + 4), read32 m (read_buf + 8)), m)

/-- Translation of `doit` (dump_mem.c:55-67), in source order:
read `size` at offset 8, read `tar_addr` at offset 4, send the greeting
via `send_single(greeting, sizeof(greeting))`, send the `size` bytes at
`tar_addr` via `send_many`, write `write_buf[0] = 0`, return 0. -/
def doit (m : Mem) (read_buf write_buf : Nat) : DoitResult :=
  let size := read32 m (read_buf + 8)
  let tar_addr := read32 m (read_buf + 4)
  { trace := [Act.readCmd 8 size,
              Act.readCmd 4 tar_addr,
              Act.callSingle greeting greeting.length,
              Act.callMany tar_addr size (readBytes m tar_addr size),
              Act.writeResp 0 0,
              Act.ret 0],
    mem := fun a => if a = write_buf then 0 else m a,
    ret := 0 }

/-- Return value of `_start` (dump_mem.c:38-41): it returns
`res = doit(read_buf, write_buf)` unchanged. -/
def startRet (m : Mem) (read_buf write_buf : Nat) : Nat :=
  let res := (doit m read_buf write_buf).ret
  res

/-- Register numbers saved by `stmfd sp!, {r2-r12, lr}` (lr is r14). -/
def savedRegs : List Nat := [2, 3, 4, 5, 6, 7, 8, 9, 10, 11, 12, 14]

/-- Store-multiple: write the listed values to consecutive words starting
at `sp` (the post-decrement base of `stmfd sp!`). -/
def stmStore : (Nat → Nat) → Nat → List Nat → (Nat → Nat)
  | stack, _, [] => stack
  | stack, sp, v :: vs => stmStore (fun a => if a = sp then v else stack a) (sp + 4) vs

/-- Load-multiple: load the listed registers from consecutive words
starting at `sp` (`ldmfd sp!`). -/
def ldmLoad : (Nat → Nat) → (Nat → Nat) → Nat → List Nat → (Nat → Nat)
  | regs, _, _, [] => regs
  | regs, stack, sp, r :: rs =>
      ldmLoad (fun i => if i = r then stack sp else regs i) stack (sp + 4) rs

/-- Machine state seen by the `_start` entry adapter: register file
(indexed by register number), stack pointer, stack memory. -/
structure ArmState where
  regs : Nat → Nat
  sp : Nat
  stk : Nat → Nat

/-- Prologue of `_start` (dum_mem.c:35-36): `stmfd sp!, {r2-r12, lr}`
pushes the twelve saved registers, then `adr r9, _start` overwrites r9
with the payload's load address `pc`. -/
def startEntry (pc : Nat) (s : ArmState) : ArmState :=
  { regs := fun i => if i = 9 then pc else s.regs i,
    sp := s.sp - 4 * savedRegs.length,
    stk := stmStore s.stk (s.sp - 4 * savedRegs.length) (savedRegs.map s.regs) }

/-- Epilogue of `_start` (dump_mem.c:40): `ldmfd sp!, {r2-r12, lr}`
reloads the saved registers from the stack; `mid` is the register file
left behind by the call to `doit`. -/
def startExit (mid : Nat → Nat) (sp : Nat) (stk : Nat → Nat) : Nat → Nat :=
  ldmLoad mid stk sp savedRegs

theorem stmStore_below (stack : Nat → Nat) (sp : Nat) (vals : List Nat) (a : Nat)
    (h : a < sp) : stmStore stack sp vals a = stack a := by
  induction vals generalizing stack sp with
  | nil => rfl
  | cons v vs ih =>
      simp only [stmStore]
      rw [ih _ _ (by omega)]
      simp [Nat.ne_of_lt h]

theorem ldmLoad_not_mem (regs stack : Nat → Nat) (sp : Nat) (rs : List Nat) (i : Nat)
    (h : i ∉ rs) : ldmLoad regs stack sp rs i = regs i := by
  induction rs generalizing regs sp with
  | nil => rfl
  | cons r rest ih =>
      simp only [ldmLoad]
      rw [ih _ _ (fun hm => h (List.mem_cons_of_mem _ hm))]
      simp only [List.mem_cons, not_or] at h
      simp [h.1]

theorem ldmLoad_congr (regs st1 st2 : Nat → Nat) (sp : Nat) (rs : List Nat)
    (h : ∀ j, j < rs.length → st1 (sp + 4 * j) = st2 (sp + 4 * j)) (i : Nat) :
    ldmLoad regs st1 sp rs i = ldmLoad regs st2 sp rs i := by
  induction rs generalizing regs sp with
  | nil => rfl
  | cons r rest ih =>
      simp only [ldmLoad]
      have h0 : st1 sp = st2 sp := by
        have := h 0 (by simp)
        simpa using this
      rw [h0]
      exact ih _ (sp + 4)
        (fun j hj => by
          have := h (j + 1) (by simpa using Nat.succ_lt_succ hj)
          have harith : sp + 4 * (j + 1) = sp + 4 + 4 * j := by omega
          rwa [harith] at this)

theorem ldmLoad_stmStore (pre regs stack : Nat → Nat) (sp : Nat) (rs : List Nat)
    (hnd : rs.Nodup) (i : Nat) (hi : i ∈ rs) :
    ldmLoad regs (stmStore stack sp (rs.map pre)) sp rs i = pre i := by
  induction rs generalizing regs stack sp with
  | nil => exact absurd hi (List.not_mem_nil i)
  | cons r rest ih =>
      simp only [List.map_cons, stmStore, ldmLoad]
      rcases List.mem_cons.mp hi with hir | hirest
      · subst hir
        have hnotrest : i ∉ rest := (List.nodup_cons.mp hnd).1
        rw [ldmLoad_not_mem _ _ _ _ _ hnotrest]
        simp only [if_pos rfl]
        rw [stmStore_below _ _ _ _ (by omega)]
        simp
      · exact ih _ _ (sp + 4) (List.nodup_cons.mp hnd).2 hirest

theorem read32_congr (m1 m2 : Mem) (a1 a2 : Nat)
    (h : ∀ k, k < 4 → m1 (a1 + k) = m2 (a2 + k)) :
    read32 m1 a1 = read32 m2 a2 := by
  unfold read32 readByte
  have h0 := h 0 (by omega)
  have h1 := h 1 (by omega)
  have h2 := h 2 (by omega)
  have h3 := h 3 (by omega)
  simp only [Nat.add_zero] at h0
  rw [h0, h1, h2, h3]

theorem readBytes_congr (m1 m2 : Mem) (a n : Nat)
    (h : ∀ i, i < n → m1 (a + i) = m2 (a + i)) :
    readBytes m1 a n = readBytes m2 a n := by
  unfold readBytes
  apply List.map_congr_left
  intro i hi
  have hv := h i (List.mem_range.mp hi)
  unfold readByte
  rw [hv]

/-- Concrete command/device memory: count field 2 at offset 8, address
field 50 at offset 4, bytes 0xDE 0xAD at addresses 50 and 51, 0 elsewhere. -/
def memA : Mem := fun a =>
  if a = 8 then 2 else if a = 4 then 50 else
  if a = 50 then 222 else if a = 51 then 173 else 0

/-- Variant of `memA` whose reserved command bytes [0,4) differ. -/
def memB : Mem := fun a => if a < 4 then 9 else memA a

/-- Variant of `memA` whose reserved command bytes [0,4) and response
buffer byte (address 100) differ. -/
def memC : Mem := fun a => if a < 4 then 7 else if a = 100 then 9 else memA a

/-- All-zero memory: every command field, in particular the count, is 0. -/
def memZ : Mem := fun _ => 0

/-- Claim C1: every invocation emits exactly two transport calls, in
order: first `send_single` of the greeting array, then `send_many` of the
`count` bytes located at the decoded address, in address order (byte `i`
of the bulk frame is the byte at `address + i`), with no extra bytes, no
truncation, no reordering, and no second greeting or end-of-transfer
frame. -/
theorem C1_transport_calls (m : Mem) (rb wb : Nat) :
    (doit m rb wb).trace.filter Act.isTransport =
      [Act.callSingle greeting greeting.length,
       Act.callMany (decode m rb).1 (decode m rb).2
         (readBytes m (decode m rb).1 (decode m rb).2)] ∧
    (readBytes m (decode m rb).1 (decode m rb).2).length = (decode m rb).2 ∧
    (∀ i, i < (decode m rb).2 →
      (readBytes m (decode m rb).1 (decode m rb).2).getD i 0 =
        readByte m ((decode m rb).1 + i)) := by
  refine ⟨?_, ?_, ?_⟩
  · simp [doit, decode, Act.isTransport, List.filter_cons]
  · simp [readBytes]
  · intro i hi
    simp [readBytes, List.getD, decode] at hi ⊢
    rw [List.getElem?_range hi]
    rfl

/-- Witness for C1 at a concrete command buffer (address 50, count 2). -/
theorem C1_transport_calls_witness :
    (readBytes memA (decode memA 0).1 (decode memA 0).2).getD 0 0 =
      readByte memA ((decode memA 0).1 + 0) :=
  (C1_transport_calls memA 0 100).2.2 0 (by decide)

/-- Claim C2 as stated is false: `greeting` is initialized from the
string literal "Ok\0", whose implicit terminator makes the array 4 bytes,
so `send_single` is passed length `sizeof(greeting) = 4`, not 3; at a
concrete invocation the greeting frame is `['O','k',0,0]` of length 4. -/
theorem C2_greeting_counterexample :
    ((doit memA 0 100).trace.filter Act.isTransport).getD 0 (Act.ret 0) =
      Act.callSingle [79, 107, 0, 0] 4 ∧
    Act.callSingle [79, 107, 0, 0] 4 ≠ Act.callSingle [79, 107, 0] 3 := by
  decide

/-- Claim C2 amended: the greeting frame sent first in every invocation is
exactly 4 bytes — 'O', 'k', the explicit NUL of the literal, and the
implicit terminating NUL — and the `send_single` call passes length
`sizeof(greeting) = 4`. -/
theorem C2_greeting_frame (m : Mem) (rb wb : Nat) :
    ((doit m rb wb).trace.filter Act.isTransport).getD 0 (Act.ret 0) =
      Act.callSingle [79, 107, 0, 0] 4 ∧ greeting.length = 4 := by
  constructor
  · simp [doit, Act.isTransport, List.filter_cons, greeting]
  · rfl

/-- Claim C3: the decoder returns exactly the 4-byte address field at
offset 4 and the 4-byte unsigned count at offset 8 of the command buffer,
passed through with no validation (any address and count, including 0 and
arbitrarily large counts, are returned unchanged for every buffer), and it
depends only on command bytes [4,12): the reserved bytes [0,4) are never
used. -/
theorem C3_decode_fields (m m2 : Mem) (rb : Nat)
    (h : ∀ i, i < 12 → 4 ≤ i → m (rb + i) = m2 (rb + i)) :
    decode m rb = (read32 m (rb + 4), read32 m (rb + 8)) ∧
    decode m rb = decode m2 rb := by
  refine ⟨rfl, ?_⟩
  unfold decode
  have ha : read32 m (rb + 4) = read32 m2 (rb + 4) :=
    read32_congr m m2 (rb + 4) (rb + 4) (fun k hk => by
      have hh := h (4 + k) (by omega) (by omega)
      have e : rb + (4 + k) = rb + 4 + k := by omega
      rwa [e] at hh)
  have hc : read32 m (rb + 8) = read32 m2 (rb + 8) :=
    read32_congr m m2 (rb + 8) (rb + 8) (fun k hk => by
      have hh := h (8 + k) (by omega) (by omega)
      have e : rb + (8 + k) = rb + 8 + k := by omega
      rwa [e] at hh)
  rw [ha, hc]

/-- Witness for C3: a buffer differing only on the reserved bytes [0,4)
decodes identically. -/
theorem C3_decode_fields_witness : decode memA 0 = decode memB 0 :=
  (C3_decode_fields memA memB 0 (by decide)).2

/-- Claim C4: the actions preceding the first transport call are exactly
the two full 4-byte command-field reads (count at offset 8, then address
at offset 4), and no command read occurs at or after the first transport
call: the command is decoded in full before the transfer starts. -/
theorem C4_decode_before_transfer (m : Mem) (rb wb : Nat) :
    (doit m rb wb).trace.takeWhile (fun a => !a.isTransport) =
      [Act.readCmd 8 (read32 m (rb + 8)), Act.readCmd 4 (read32 m (rb + 4))] ∧
    ((doit m rb wb).trace.dropWhile (fun a => !a.isTransport)).all
      (fun a => !a.isCmdRead) = true := by
  constructor
  · simp [doit, List.takeWhile, Act.isTransport]
  · simp [doit, List.dropWhile, Act.isTransport, Act.isCmdRead]

/-- Claim C5: the response buffer's status byte (offset 0) is written
exactly once per invocation, with value 0, never before the bulk transfer
call; and no address other than the status byte is modified. -/
theorem C5_status_write (m : Mem) (rb wb : Nat) :
    (doit m rb wb).trace.filter Act.isRespWrite = [Act.writeResp 0 0] ∧
    ((doit m rb wb).trace.takeWhile (fun a => !a.isBulk)).all
      (fun a => !a.isRespWrite) = true ∧
    (doit m rb wb).mem wb = 0 ∧
    (∀ a, a ≠ wb → (doit m rb wb).mem a = m a) := by
  refine ⟨?_, ?_, ?_, ?_⟩
  · simp [doit, Act.isRespWrite, List.filter_cons]
  · simp [doit, List.takeWhile, Act.isBulk, Act.isRespWrite]
  · simp [doit]
  · intro a ha
    simp [doit, ha]

/-- Witness for C5 at a concrete invocation: an address other than the
status byte is left unchanged. -/
theorem C5_status_write_witness : (doit memA 0 100).mem 5 = memA 5 :=
  (C5_status_write memA 0 100).2.2.2 5 (by decide)

/-- Claim C6: with count 0 the bulk frame is empty — `send_many` is
called with length 0 and emits zero bytes — while the greeting is still
sent first and the response status byte is still written to 0. -/
theorem C6_zero_count (m : Mem) (rb wb : Nat) (h : read32 m (rb + 8) = 0) :
    (doit m rb wb).trace.filter Act.isTransport =
      [Act.callSingle greeting 4, Act.callMany (read32 m (rb + 4)) 0 []] ∧
    (doit m rb wb).mem wb = 0 := by
  constructor
  · simp [doit, Act.isTransport, List.filter_cons, h, readBytes, greeting]
  · simp [doit]

/-- Witness for C6 on the all-zero memory, whose count field is 0. -/
theorem C6_zero_count_witness :
    (doit memZ 0 100).trace.filter Act.isTransport =
      [Act.callSingle greeting 4, Act.callMany (read32 memZ (0 + 4)) 0 []] ∧
    (doit memZ 0 100).mem 100 = 0 :=
  C6_zero_count memZ 0 100 (by decide)

/-- Claim C7: there is no failure branch — for every memory, address and
count, `doit` returns 0, its trace ends in `return 0`, and `_start`
passes that 0 through unchanged. -/
theorem C7_always_status_zero (m : Mem) (rb wb : Nat) :
    (doit m rb wb).ret = 0 ∧ startRet m rb wb = 0 ∧
    (doit m rb wb).trace.getLast? = some (Act.ret 0) :=
  ⟨rfl, rfl, rfl⟩

/-- Claim C8: decoding is pure and side-effect-free — the effectful
decoder returns the command memory unchanged, decoding again on the
post-decode memory yields the identical (address, count) pair, and its
value part is the pure `decode`. -/
theorem C8_decode_pure (m : Mem) (rb : Nat) :
    (decodeSt m rb).2 = m ∧
    (decodeSt (decodeSt m rb).2 rb).1 = (decodeSt m rb).1 ∧
    (decodeSt m rb).1 = decode m rb :=
  ⟨rfl, rfl, rfl⟩

/-- Claim C9: the entry adapter preserves r2–r12 and lr — for any caller
register file, any register file `mid` left behind by the (non-inlined)
call to `doit`, and any stack `stk2` after the call that is intact on the
twelve saved words, the `ldmfd` epilogue restores every saved register to
its value before `_start` ran (including r9, saved before `adr r9`
overwrites it). -/
theorem C9_regs_preserved (s : ArmState) (pc : Nat) (mid stk2 : Nat → Nat)
    (hstk : ∀ j, j < savedRegs.length →
      stk2 ((startEntry pc s).sp + 4 * j) =
        (startEntry pc s).stk ((startEntry pc s).sp + 4 * j))
    (i : Nat) (hi : i ∈ savedRegs) :
    startExit mid (startEntry pc s).sp stk2 i = s.regs i := by
  unfold startExit
  rw [ldmLoad_congr mid stk2 (startEntry pc s).stk (startEntry pc s).sp savedRegs hstk i]
  exact ldmLoad_stmStore s.regs mid s.stk (s.sp - 4 * savedRegs.length) savedRegs
    (by decide) i hi

/-- Concrete caller context used to witness the register-preservation
theorem. -/
def armA : ArmState := { regs := fun i => i + 20, sp := 1000, stk := fun _ => 0 }

/-- Witness for C9: with a concrete caller context, a clobbering `doit`
register file, and the untouched stack, r2 is restored. -/
theorem C9_regs_preserved_witness :
    startExit (fun _ => 7) (startEntry 0 armA).sp (startEntry 0 armA).stk 2 =
      armA.regs 2 :=
  C9_regs_preserved armA 0 (fun _ => 7) (startEntry 0 armA).stk
    (fun _ _ => rfl) 2 (by decide)

/-- Claim C10: determinism / noninterference — two invocations whose
command buffers agree on bytes [4,12) and whose device memory agrees on
the decoded dump window produce the identical action trace (hence the
identical transport calls), the identical return value, and the identical
status byte, regardless of the response buffers' initial contents and of
the reserved command bytes [0,4). -/
theorem C10_noninterference (m1 m2 : Mem) (rb1 rb2 wb1 wb2 : Nat)
    (hcmd : ∀ i, i < 12 → 4 ≤ i → m1 (rb1 + i) = m2 (rb2 + i))
    (hdump : ∀ i, i < (decode m1 rb1).2 →
      m1 ((decode m1 rb1).1 + i) = m2 ((decode m1 rb1).1 + i)) :
    (doit m1 rb1 wb1).trace = (doit m2 rb2 wb2).trace ∧
    (doit m1 rb1 wb1).ret = (doit m2 rb2 wb2).ret ∧
    (doit m1 rb1 wb1).mem wb1 = (doit m2 rb2 wb2).mem wb2 := by
  have ha : read32 m1 (rb1 + 4) = read32 m2 (rb2 + 4) :=
    read32_congr m1 m2 (rb1 + 4) (rb2 + 4) (fun k hk => by
      have hh := hcmd (4 + k) (by omega) (by omega)
      have e1 : rb1 + (4 + k) = rb1 + 4 + k := by omega
      have e2 : rb2 + (4 + k) = rb2 + 4 + k := by omega
      rwa [e1, e2] at hh)
  have hc : read32 m1 (rb1 + 8) = read32 m2 (rb2 + 8) :=
    read32_congr m1 m2 (rb1 + 8) (rb2 + 8) (fun k hk => by
      have hh := hcmd (8 + k) (by omega) (by omega)
      have e1 : rb1 + (8 + k) = rb1 + 8 + k := by omega
      have e2 : rb2 + (8 + k) = rb2 + 8 + k := by omega
      rwa [e1, e2] at hh)
  have hbytes : readBytes m1 (read32 m1 (rb1 + 4)) (read32 m1 (rb1 + 8)) =
      readBytes m2 (read32 m2 (rb2 + 4)) (read32 m2 (rb2 + 8)) := by
    rw [← ha, ← hc]
    exact readBytes_congr m1 m2 (read32 m1 (rb1 + 4)) (read32 m1 (rb1 + 8))
      (fun i hi => hdump i hi)
  refine ⟨?_, rfl, ?_⟩
  · simp only [doit]
    rw [hbytes, ha, hc]
  · simp [doit]

/-- Witness for C10: `memA` and `memC` differ on the reserved command
bytes [0,4) and on the response byte, agree on the fields and on the dump
window, and produce the identical trace. -/
theorem C10_noninterference_witness :
    (doit memA 0 100).trace = (doit memC 0 100).trace :=
  (C10_noninterference memA memC 0 0 100 100 (by decide) (by decide)).1
